import Mathlib

/-!
Shallow embedding of the NASA APOD ingestion pipeline (`src/apod_pipeline.py`):
date-range resolution (`resolve_date_range`), the HTTP fetch retry loop and
payload normalization (`fetch_apod_range`), and the SQLite upsert store
(`ensure_schema` / `persist_entries`).

Modelling conventions:
- Calendar dates are modelled as integers (day numbers); `timedelta(days=k)`
  is integer addition.  "Today" is an explicit parameter.
- The sequence of physical HTTP attempt outcomes is an oracle
  `Nat → AttemptOutcome` (attempt index to outcome): each attempt either
  raises a network error (`requests.RequestException`) or yields a response
  with a status code, an optional `Retry-After` header, a body that either
  parses as JSON (`some payload`) or does not (`none`), and the raw text.
- JSON payloads are restricted to the shapes the code reads: a single object
  or an array of objects, each object carrying the nine fields the code
  extracts with `.get`.  Missing keys are `none`.
- `time.sleep` calls are recorded as a trace (list of waited durations).
- The SQLite table is a list of rows; the connection's table state is
  `Option Table` (`none` = table not yet created).  `CURRENT_TIMESTAMP` is an
  explicit `now : Nat` parameter.
-/

namespace Apod

/-- One raw JSON object of the API payload, restricted to the keys the code
reads with `entry.get(...)`; `none` means the key is absent (JSON null or
missing). -/
structure RawEntry where
  date : Option String
  title : Option String
  explanation : Option String
  media_type : Option String
  url : Option String
  hdurl : Option String
  thumbnail_url : Option String
  service_version : Option String
  copyright : Option String
deriving DecidableEq

/-- A JSON payload as the code distinguishes it: a single object
(`isinstance(payload, dict)`) or an array. -/
inductive Payload where
  | obj (e : RawEntry)
  | arr (es : List RawEntry)
deriving DecidableEq

/-- An HTTP response: status code, optional `Retry-After` header value,
JSON-parse result of the body (`none` = body is not JSON), and raw text. -/
structure Response where
  status : Nat
  retryAfter : Option String
  body : Option Payload
  text : String
deriving DecidableEq

/-- Outcome of one physical HTTP attempt: either the request call raises
(`requests.RequestException`) or a response comes back. -/
inductive AttemptOutcome where
  | netError (msg : String)
  | response (r : Response)
deriving DecidableEq

/-- The message attached to the `ApiError` raise
(`payload if isinstance(payload, dict) else response.text`). -/
inductive ApiMessage where
  | jsonObject (e : RawEntry)
  | text (t : String)
deriving DecidableEq

/-- The failure modes of `fetch_apod_range`. -/
inductive FetchError where
  /-- The `requests.RequestException` re-raised on the last attempt. -/
  | networkError (msg : String)
  /-- `ValueError` raised by `int(...)` on an unparseable `Retry-After`. -/
  | retryAfterValueError (header : String)
  /-- `RuntimeError` for a body that fails to parse as JSON. -/
  | nonJson (snippet : String)
  /-- `RuntimeError` for a non-200 status after JSON parsing. -/
  | apiError (status : Nat) (message : ApiMessage)
  /-- `RuntimeError` in the `for`/`else` clause (only reachable when the
  attempt range is empty). -/
  | exhaustedRetries (lastError : Option String)
deriving DecidableEq

/-- A normalized entry as built by the normalization loop: `date` and `title`
are present (the falsy check passed); the rest are carried as-is. -/
structure Entry where
  date : String
  title : String
  explanation : Option String
  media_type : Option String
  url : Option String
  hdurl : Option String
  thumbnail_url : Option String
  service_version : Option String
  copyright : Option String
deriving DecidableEq

/-- `resolve_date_range` from the source: dates as integers, `today` an
explicit parameter.  Mirrors the `if start and end / elif ... / else` chain
(dates are always truthy in Python, so presence tests are `Option` matches),
the clamp of `end` to `today`, and the two `ArgumentTypeError` raises. -/
def resolve_date_range (today : Int) (days : Int)
    (start? : Option Int) (end? : Option Int) : Except String (Int × Int) :=
  if days ≤ 0 then Except.error "--days must be positive"
  else
    let p : Int × Int :=
      match start?, end? with
      | some s, some e => (s, e)
      | some s, none => (s, s + (days - 1))
      | none, some e => (e - (days - 1), e)
      | none, none => (today - (days - 1), today)
    let s := p.1
    let e := if p.2 > today then today else p.2
    if s > e then Except.error "start date must be on or before end date"
    else Except.ok (s, e)

/-- Drop leading whitespace characters. -/
def dropWs : List Char → List Char
  | [] => []
  | c :: cs => if c.isWhitespace then dropWs cs else c :: cs

/-- Python's `int(str)` on a decimal string: surrounding whitespace is
stripped, an optional sign precedes the digits; anything else raises
`ValueError` (modelled as `none`). -/
def pyInt (s : String) : Option Int :=
  let cs := (dropWs (dropWs s.data).reverse).reverse
  let sc : Bool × List Char :=
    match cs with
    | '-' :: rest => (true, rest)
    | '+' :: rest => (false, rest)
    | _ => (false, cs)
  let neg := sc.1
  let core := sc.2
  if core.isEmpty then none
  else if core.all Char.isDigit then
    let n : Nat := core.foldl (fun acc c => acc * 10 + (c.toNat - 48)) 0
    some (if neg then -(n : Int) else (n : Int))
  else none

/-- `int(response.headers.get("Retry-After", retry_wait))`: when the header
is absent the default `retry_wait` (already an int) is used; when present the
string goes through `int(...)`, whose failure is `none`. -/
def retryAfterSeconds (header : Option String) (retry_wait : Int) : Option Int :=
  match header with
  | none => some retry_wait
  | some s => pyInt s

/-- `message = payload if isinstance(payload, dict) else response.text`. -/
def apiMessage : Payload → String → ApiMessage
  | Payload.obj e, _ => ApiMessage.jsonObject e
  | Payload.arr _, t => ApiMessage.text t

/-- One step of the retry `for` loop of `fetch_apod_range`, with explicit
fuel (`range(retries + 1)` leaves `fuel = retries + 1 - attempt` iterations).
Returns the trace of `time.sleep` durations performed from this point on and
either the parsed payload (the `break` on a 200) or the raised error.
Running out of fuel is the `for`/`else` clause. -/
def fetchGo (oracle : Nat → AttemptOutcome) (retries : Nat) (w : Int) :
    Nat → Nat → Option String → List Int × Except FetchError Payload
  | 0, _, le => ([], Except.error (FetchError.exhaustedRetries le))
  | fuel + 1, attempt, le =>
    match oracle attempt with
    | AttemptOutcome.netError msg =>
      if attempt = retries then
        ([], Except.error (FetchError.networkError msg))
      else
        let rest := fetchGo oracle retries w fuel (attempt + 1) (some msg)
        (w :: rest.1, rest.2)
    | AttemptOutcome.response r =>
      if r.status = 429 ∧ attempt < retries then
        match retryAfterSeconds r.retryAfter w with
        | none =>
          ([], Except.error (FetchError.retryAfterValueError (r.retryAfter.getD "")))
        | some v =>
          let rest := fetchGo oracle retries w fuel (attempt + 1) le
          (v :: rest.1, rest.2)
      else if 500 ≤ r.status ∧ attempt < retries then
        let rest := fetchGo oracle retries w fuel (attempt + 1) le
        (w :: rest.1, rest.2)
      else
        match r.body with
        | none => ([], Except.error (FetchError.nonJson (r.text.take 200)))
        | some p =>
          if r.status ≠ 200 then
            ([], Except.error (FetchError.apiError r.status (apiMessage p r.text)))
          else
            ([], Except.ok p)

/-- Python truthiness of an optional string: `not value` is true for `None`
and for the empty string. -/
def isFalsy : Option String → Bool
  | none => true
  | some s => s.isEmpty

/-- One iteration of the normalization loop: skip the entry when `date` or
`title` is falsy, otherwise build the normalized dict. -/
def normalizeOne (e : RawEntry) : Option Entry :=
  match e.date, e.title with
  | some d, some t =>
    if d.isEmpty || t.isEmpty then none
    else
      some
        { date := d, title := t, explanation := e.explanation,
          media_type := e.media_type, url := e.url, hdurl := e.hdurl,
          thumbnail_url := e.thumbnail_url,
          service_version := e.service_version, copyright := e.copyright }
  | _, _ => none

/-- `entries = payload if isinstance(payload, list) else [payload]`. -/
def payloadItems : Payload → List RawEntry
  | Payload.obj e => [e]
  | Payload.arr es => es

/-- The normalization loop over the payload. -/
def normalizePayload (p : Payload) : List Entry :=
  (payloadItems p).filterMap normalizeOne

/-- `fetch_apod_range` from the source: run the retry loop starting at
attempt 0 with the full attempt budget, then normalize the payload on
success.  Returns the sleep trace alongside the result. -/
def fetch_apod_range (oracle : Nat → AttemptOutcome) (retries : Nat) (w : Int) :
    List Int × Except FetchError (List Entry) :=
  let run := fetchGo oracle retries w (retries + 1) 0 none
  (run.1, run.2.map normalizePayload)

/-- Whether a fetch result is the `ExhaustedRetries` failure. -/
def isExhausted : Except FetchError (List Entry) → Bool
  | Except.error (FetchError.exhaustedRetries _) => true
  | _ => false

/-- Whether a loop-level result is the `ExhaustedRetries` failure. -/
def isExhaustedP : Except FetchError Payload → Bool
  | Except.error (FetchError.exhaustedRetries _) => true
  | _ => false

/-- A row of the `apod_entries` table: the nine inserted columns plus
`fetched_at` (`CURRENT_TIMESTAMP`, modelled as a `Nat`). -/
structure Row where
  date : String
  title : String
  explanation : Option String
  media_type : Option String
  url : Option String
  hdurl : Option String
  thumbnail_url : Option String
  service_version : Option String
  copyright : Option String
  fetched_at : Nat
deriving DecidableEq

/-- The `apod_entries` table contents, in row order. -/
abbrev Table := List Row

/-- The row written for an entry at ingestion time `now`: on insert
`fetched_at` comes from the column default `CURRENT_TIMESTAMP`; on conflict
the `DO UPDATE` sets every non-key column from `excluded` and
`fetched_at = CURRENT_TIMESTAMP`. -/
def mkRow (e : Entry) (now : Nat) : Row :=
  { date := e.date, title := e.title, explanation := e.explanation,
    media_type := e.media_type, url := e.url, hdurl := e.hdurl,
    thumbnail_url := e.thumbnail_url, service_version := e.service_version,
    copyright := e.copyright, fetched_at := now }

/-- `ensure_schema`: `CREATE TABLE IF NOT EXISTS` — the existing table is
kept, an absent table becomes the empty table. -/
def ensure_schema (db : Option Table) : Table :=
  db.getD []

/-- The rows of a possibly-absent table (an absent table has no rows). -/
def rowsOf (db : Option Table) : Table :=
  db.getD []

/-- The `DO UPDATE` applied to one row when its date collides with the
incoming entry. -/
def overwriteRow (e : Entry) (now : Nat) (r : Row) : Row :=
  if r.date == e.date then mkRow e now else r

/-- One `INSERT ... ON CONFLICT(date) DO UPDATE` statement: update the
existing row for that date if present (date is the primary key), otherwise
append a new row. -/
def upsertRow (t : Table) (e : Entry) (now : Nat) : Table :=
  if t.any fun r => r.date == e.date then
    t.map (overwriteRow e now)
  else
    t ++ [mkRow e now]

/-- `executemany` over the batch, one statement per entry in input order,
with an injected internal failure before the statement at index `failAt`
(`none` = no failure). -/
def execGo (now : Nat) (failAt : Option Nat) :
    Table → List Entry → Nat → Except Unit Table
  | t, [], _ => Except.ok t
  | t, e :: rest, i =>
    if failAt = some i then Except.error ()
    else execGo now failAt (upsertRow t e now) rest (i + 1)

/-- `persist_entries` under the `with sqlite3.connect(...)` transaction
semantics: an empty batch returns 0 before any connection is opened; the
`CREATE TABLE IF NOT EXISTS` runs in autocommit (DDL is not covered by the
implicit DML transaction, so it persists either way); the `executemany` DML
runs in one transaction that the context manager commits on success and
rolls back when the body raises. -/
def persist_entries_tx (db : Option Table) (es : List Entry) (now : Nat)
    (failAt : Option Nat) : Option Table × Except Unit Nat :=
  if es.isEmpty then (db, Except.ok 0)
  else
    let t := ensure_schema db
    match execGo now failAt t es 0 with
    | Except.error _ => (some t, Except.error ())
    | Except.ok t2 => (some t2, Except.ok es.length)

/-- `persist_entries` on the non-failing path: empty batches short-circuit to
0 with no connection; otherwise the schema is ensured, every entry is
upserted in order, and `len(entries)` is returned. -/
def persist_entries (db : Option Table) (es : List Entry) (now : Nat) :
    Option Table × Nat :=
  if es.isEmpty then (db, 0)
  else
    let t := ensure_schema db
    (some (es.foldl (fun a e => upsertRow a e now) t), es.length)

/-- A sequence of `persist_entries` calls (each with its batch and its
ingestion time) against an initially given table state. -/
def runCalls : Option Table → List (List Entry × Nat) → Option Table
  | db, [] => db
  | db, (es, now) :: rest => runCalls (persist_entries db es now).1 rest

/-- The table invariant: at most one row per date. -/
def distinctDates (t : Table) : Prop :=
  (t.map Row.date).Nodup

instance (t : Table) : Decidable (distinctDates t) :=
  inferInstanceAs (Decidable ((t.map Row.date).Nodup))

/-- The last entry of a batch carrying a given date (the one whose values
the final `ON CONFLICT` update leaves in place). -/
def lastWith (es : List Entry) (d : String) : Option Entry :=
  match es with
  | [] => none
  | e :: rest =>
    match lastWith rest d with
    | some x => some x
    | none => if e.date == d then some e else none

/-- Spec-side view of a raw candidate: kept exactly when neither `date` nor
`title` is absent/empty. -/
def keepCandidate (e : RawEntry) : Bool :=
  !(isFalsy e.date || isFalsy e.title)

/-- Forget the normalization of an entry, recovering the raw candidate it
came from. -/
def entryToRaw (x : Entry) : RawEntry :=
  { date := some x.date, title := some x.title, explanation := x.explanation,
    media_type := x.media_type, url := x.url, hdurl := x.hdurl,
    thumbnail_url := x.thumbnail_url, service_version := x.service_version,
    copyright := x.copyright }

/-- The resolution rule exactly as the spec words it: both given → as-is;
only start → `end = start + (days - 1)`; only end →
`start = end - (days - 1)`; neither → `end = today`,
`start = today - (days - 1)`; then clamp `end` to `today`. -/
def resolvedPairSpec (today : Int) (days : Int)
    (start? : Option Int) (end? : Option Int) : Int × Int :=
  let p : Int × Int :=
    match start?, end? with
    | some s, some e => (s, e)
    | some s, none => (s, s + (days - 1))
    | none, some e => (e - (days - 1), e)
    | none, none => (today - (days - 1), today)
  (p.1, if today < p.2 then today else p.2)

/-- Claim C3: for every `days > 0` and optional start/end dates, the resolver
returns the pair given by: both given → as-is; only start →
`end = start + (days - 1)`; only end → `start = end - (days - 1)`; neither →
`end = today`, `start = today - (days - 1)`; then `end` is clamped to `today`;
it fails with an `InvalidRange` error exactly when `days ≤ 0` or the resolved
start is after the resolved end. -/
theorem claim_c3 (today days : Int) (start? end? : Option Int) :
    (days ≤ 0 → (resolve_date_range today days start? end?).isOk = false)
    ∧ (0 < days →
        (resolvedPairSpec today days start? end?).1 ≤
            (resolvedPairSpec today days start? end?).2 →
        resolve_date_range today days start? end? =
          Except.ok (resolvedPairSpec today days start? end?))
    ∧ (0 < days →
        (resolvedPairSpec today days start? end?).2 <
            (resolvedPairSpec today days start? end?).1 →
        (resolve_date_range today days start? end?).isOk = false) := by
  refine ⟨fun hd => ?_, fun hd hle => ?_, fun hd hlt => ?_⟩ <;>
    rcases start? with _ | s <;> rcases end? with _ | e <;>
      simp only [resolve_date_range, resolvedPairSpec, Except.isOk] at * <;>
      split_ifs at * <;>
      first
        | rfl
        | omega

/-- Claim C3 witness: with `today = 10`, `days = 5` and no dates given, the
resolver returns the pair `(6, 10)`. -/
theorem claim_c3_witness :
    resolve_date_range 10 5 none none = Except.ok (6, 10) :=
  (claim_c3 10 5 none none).2.1 (by decide) (by decide)

/-- Claim C4 counterexample: with `today = 10`, resolving `days = 30` with
only `start = 0` returns `end = 10` (the clamp to today), not
`start + 29 = 29`. -/
theorem claim_c4_counterexample :
    resolve_date_range 10 30 (some 0) none = Except.ok (0, 10)
    ∧ (0 : Int) + 29 ≠ 10 :=
  ⟨rfl, by decide⟩

/-- Claim C4 (amended): for every start date whose 30-day window does not
extend past today (`start + 29 ≤ today`), calling the resolver with only
start given and `days = 30` returns a resolved end equal to `start + 29`;
when the window crosses today the end is clamped to today instead. -/
theorem claim_c4_amended (today s : Int) (h : s + 29 ≤ today) :
    resolve_date_range today 30 (some s) none = Except.ok (s, s + 29) := by
  simp only [resolve_date_range]
  norm_num
  rw [if_neg (by omega : ¬ s + 29 > today), if_neg (by omega : ¬ s > s + 29)]

/-- Claim C4 amended witness: `today = 100`, `start = 0` gives
`end = 29 = start + 29`. -/
theorem claim_c4_amended_witness :
    resolve_date_range 100 30 (some 0) none = Except.ok (0, 29) :=
  claim_c4_amended 100 0 (by decide)

theorem normalize_map_raw : ∀ l : List RawEntry,
    (l.filterMap normalizeOne).map entryToRaw = l.filter keepCandidate := by
  intro l
  induction l with
  | nil => rfl
  | cons e rest ih =>
    rcases e with ⟨d?, t?, x1, x2, x3, x4, x5, x6, x7⟩
    rcases d? with _ | d <;> rcases t? with _ | t
    · simp [normalizeOne, keepCandidate, isFalsy, ih]
    · simp [normalizeOne, keepCandidate, isFalsy, ih]
    · simp [normalizeOne, keepCandidate, isFalsy, ih]
    · by_cases hd : d.isEmpty <;> by_cases ht : t.isEmpty <;>
        simp [normalizeOne, keepCandidate, isFalsy, hd, ht, entryToRaw, ih]

/-- Claim C6: normalization treats the payload as a list of candidates, drops
exactly those whose `date` or `title` is absent or empty, preserves the
original relative order of the survivors (un-normalizing the output yields
exactly the filtered input), every element of the result has non-empty `date`
and `title`, and the result may be empty. -/
theorem claim_c6 (p : Payload) :
    (normalizePayload p).map entryToRaw = (payloadItems p).filter keepCandidate
    ∧ (∀ x ∈ normalizePayload p,
        x.date.isEmpty = false ∧ x.title.isEmpty = false)
    ∧ normalizePayload (Payload.arr []) = [] := by
  refine ⟨normalize_map_raw _, ?_, rfl⟩
  intro x hx
  rw [normalizePayload, List.mem_filterMap] at hx
  obtain ⟨e, -, he⟩ := hx
  rcases e with ⟨d?, t?, x1, x2, x3, x4, x5, x6, x7⟩
  rcases d? with _ | d <;> rcases t? with _ | t
  · simp [normalizeOne] at he
  · simp [normalizeOne] at he
  · simp [normalizeOne] at he
  · by_cases hd : d.isEmpty <;> by_cases ht : t.isEmpty <;>
      simp [normalizeOne, hd, ht] at he
    rcases he with rfl
    exact ⟨by simpa using hd, by simpa using ht⟩

/-- Claim C6 witness: a payload with one candidate missing its date and one
complete candidate normalizes to exactly the complete one, in order. -/
theorem claim_c6_witness :
    (normalizePayload (Payload.arr
        [⟨none, some "X", none, none, none, none, none, none, none⟩,
         ⟨some "2024-02-01", some "Y", none, none, none, none, none, none,
          none⟩])).map entryToRaw =
      (payloadItems (Payload.arr
        [⟨none, some "X", none, none, none, none, none, none, none⟩,
         ⟨some "2024-02-01", some "Y", none, none, none, none, none, none,
          none⟩])).filter keepCandidate
    ∧ (∀ x ∈ normalizePayload (Payload.arr
        [⟨none, some "X", none, none, none, none, none, none, none⟩,
         ⟨some "2024-02-01", some "Y", none, none, none, none, none, none,
          none⟩]),
        x.date.isEmpty = false ∧ x.title.isEmpty = false)
    ∧ normalizePayload (Payload.arr []) = [] :=
  claim_c6 (Payload.arr
    [⟨none, some "X", none, none, none, none, none, none, none⟩,
     ⟨some "2024-02-01", some "Y", none, none, none, none, none, none,
      none⟩])

theorem overwriteRow_date (e : Entry) (now : Nat) (r : Row) :
    (overwriteRow e now r).date = r.date := by
  unfold overwriteRow
  split
  · next h => exact (beq_iff_eq.mp h).symm
  · rfl

theorem upsert_distinct (t : Table) (e : Entry) (now : Nat)
    (ht : distinctDates t) : distinctDates (upsertRow t e now) := by
  unfold upsertRow
  split
  · next _ =>
    unfold distinctDates
    rw [List.map_map]
    have hcomp : Row.date ∘ overwriteRow e now = Row.date :=
      funext fun r => overwriteRow_date e now r
    rw [hcomp]
    exact ht
  · next h =>
    unfold distinctDates
    rw [List.map_append]
    have hnotin : e.date ∉ t.map Row.date := by
      intro hmem
      obtain ⟨r, hr, hrd⟩ := List.mem_map.mp hmem
      have : t.any (fun r => r.date == e.date) = true :=
        List.any_eq_true.mpr ⟨r, hr, beq_iff_eq.mpr hrd⟩
      simp [this] at h
    simp [List.nodup_append]
    refine ⟨ht, fun x hx hxe => hnotin ?_⟩
    have : x.date = e.date := hxe
    exact this ▸ List.mem_map_of_mem Row.date hx

theorem filter_date_map_overwrite (e : Entry) (now : Nat) (d : String)
    (t : Table) :
    (t.map (overwriteRow e now)).filter (fun r => r.date == d) =
      (t.filter (fun r => r.date == d)).map (overwriteRow e now) := by
  induction t with
  | nil => rfl
  | cons r rs ih =>
    simp only [List.map_cons, List.filter_cons, overwriteRow_date]
    by_cases hr : (r.date == d) = true
    · simp [hr, ih]
    · simp [hr, ih]

theorem distinct_filter_sing (t : Table) (d : String) (ht : distinctDates t)
    (hmem : d ∈ t.map Row.date) :
    ∃ r0, t.filter (fun r => r.date == d) = [r0] ∧ r0.date = d := by
  induction t with
  | nil => simp at hmem
  | cons r rs ih =>
    rw [distinctDates, List.map_cons, List.nodup_cons] at ht
    by_cases hr : r.date = d
    · refine ⟨r, ?_, hr⟩
      have hnil : rs.filter (fun x => x.date == d) = [] := by
        rw [List.filter_eq_nil_iff]
        intro a ha had
        exact ht.1 (hr ▸ beq_iff_eq.mp had ▸ List.mem_map_of_mem Row.date ha)
      simp [List.filter_cons, hr, hnil]
    · have hmem' : d ∈ rs.map Row.date := by
        rcases List.mem_cons.mp hmem with h | h
        · exact absurd h.symm hr
        · exact h
      obtain ⟨r0, h1, h2⟩ := ih ht.2 hmem'
      exact ⟨r0, by simp [List.filter_cons, beq_iff_eq, hr, h1], h2⟩

theorem upsert_filter_self (t : Table) (e : Entry) (now : Nat) (d : String)
    (ht : distinctDates t) (hd : e.date = d) :
    (upsertRow t e now).filter (fun r => r.date == d) = [mkRow e now] := by
  unfold upsertRow
  split
  · next h =>
    rw [filter_date_map_overwrite]
    have hmem : d ∈ t.map Row.date := by
      obtain ⟨r, hr, hrd⟩ := List.any_eq_true.mp h
      exact hd ▸ beq_iff_eq.mp hrd ▸ List.mem_map_of_mem Row.date hr
    obtain ⟨r0, h1, h2⟩ := distinct_filter_sing t d ht hmem
    rw [h1]
    simp [overwriteRow, beq_iff_eq, h2, hd]
  · next h =>
    have hnil : t.filter (fun r => r.date == d) = [] := by
      rw [List.filter_eq_nil_iff]
      intro a ha had
      have : t.any (fun r => r.date == e.date) = true :=
        List.any_eq_true.mpr ⟨a, ha, beq_iff_eq.mpr (hd ▸ beq_iff_eq.mp had)⟩
      simp [this] at h
    simp [List.filter_append, hnil, mkRow, beq_iff_eq, hd]

theorem upsert_filter_other (t : Table) (e : Entry) (now : Nat) (d : String)
    (hne : e.date ≠ d) :
    (upsertRow t e now).filter (fun r => r.date == d) =
      t.filter (fun r => r.date == d) := by
  unfold upsertRow
  split
  · next _ =>
    rw [filter_date_map_overwrite]
    have : ∀ a ∈ t.filter (fun r => r.date == d), overwriteRow e now a = a := by
      intro a ha
      have had : a.date = d := by
        have := List.of_mem_filter ha
        exact beq_iff_eq.mp this
      unfold overwriteRow
      rw [if_neg]
      intro hc
      exact hne ((beq_iff_eq.mp hc).symm.trans had)
    calc (t.filter (fun r => r.date == d)).map (overwriteRow e now)
        = (t.filter (fun r => r.date == d)).map id := List.map_congr_left this
      _ = t.filter (fun r => r.date == d) := List.map_id _
  · next _ =>
    have hbe : ((mkRow e now).date == d) = false := by
      rw [beq_eq_false_iff_ne]
      exact hne
    simp [List.filter_append, List.filter_cons, hbe]

theorem foldl_upsert_distinct (now : Nat) :
    ∀ (es : List Entry) (t : Table), distinctDates t →
      distinctDates (es.foldl (fun a e => upsertRow a e now) t)
  | [], _, ht => ht
  | e :: rest, t, ht =>
    foldl_upsert_distinct now rest (upsertRow t e now)
      (upsert_distinct t e now ht)

theorem foldl_upsert_filter (now : Nat) (d : String) :
    ∀ (es : List Entry) (t : Table), distinctDates t →
      ((es.foldl (fun a e => upsertRow a e now) t).filter
          fun r => r.date == d) =
        (match lastWith es d with
         | some x => [mkRow x now]
         | none => t.filter fun r => r.date == d) := by
  intro es
  induction es with
  | nil => intro t _; rfl
  | cons e rest ih =>
    intro t ht
    rw [List.foldl_cons, ih (upsertRow t e now) (upsert_distinct t e now ht)]
    show _ = (match (match lastWith rest d with
        | some x => some x
        | none => if e.date == d then some e else none) with
      | some x => [mkRow x now]
      | none => t.filter fun r => r.date == d)
    cases hlw : lastWith rest d with
    | some x => rfl
    | none =>
      by_cases hed : e.date = d
      · rw [if_pos (beq_iff_eq.mpr hed)]
        exact upsert_filter_self t e now d ht hed
      · rw [if_neg (fun hc => hed (beq_iff_eq.mp hc))]
        exact upsert_filter_other t e now d hed

theorem persist_rows (db : Option Table) (es : List Entry) (now : Nat) :
    rowsOf (persist_entries db es now).1 =
      es.foldl (fun a e => upsertRow a e now) (rowsOf db) := by
  unfold persist_entries
  split
  · next h => rw [List.isEmpty_iff.mp h]; rfl
  · rfl

theorem persist_count (db : Option Table) (es : List Entry) (now : Nat) :
    (persist_entries db es now).2 = es.length := by
  unfold persist_entries
  split
  · next h => rw [List.isEmpty_iff.mp h]; rfl
  · rfl

theorem persist_distinct (db : Option Table) (es : List Entry) (now : Nat)
    (hdb : distinctDates (rowsOf db)) :
    distinctDates (rowsOf (persist_entries db es now).1) := by
  rw [persist_rows]
  exact foldl_upsert_distinct now es (rowsOf db) hdb

theorem runCalls_distinct :
    ∀ (calls : List (List Entry × Nat)) (db : Option Table),
      distinctDates (rowsOf db) →
      distinctDates (rowsOf (runCalls db calls))
  | [], _, hdb => hdb
  | (es, now) :: rest, db, hdb =>
    runCalls_distinct rest (persist_entries db es now).1
      (persist_distinct db es now hdb)

theorem execGo_fail (now k : Nat) :
    ∀ (es : List Entry) (t : Table) (i : Nat), i ≤ k → k < i + es.length →
      execGo now (some k) t es i = Except.error () := by
  intro es
  induction es with
  | nil =>
    intro t i h1 h2
    simp at h2
    omega
  | cons e rest ih =>
    intro t i h1 h2
    unfold execGo
    by_cases hik : k = i
    · rw [if_pos (by rw [hik])]
    · rw [if_neg (by simp; omega)]
      exact ih (upsertRow t e now) (i + 1) (by omega)
        (by simp at h2 ⊢; omega)

theorem execGo_ok (now : Nat) :
    ∀ (es : List Entry) (t : Table) (i : Nat),
      execGo now none t es i =
        Except.ok (es.foldl (fun a e => upsertRow a e now) t) := by
  intro es
  induction es with
  | nil => intro t i; rfl
  | cons e rest ih =>
    intro t i
    unfold execGo
    rw [if_neg (by simp)]
    exact ih (upsertRow t e now) (i + 1)

/-- Claim C7: upsert returns the number of entries attempted, equal to the
input length (whether or not the dates already exist — the count never
depends on the table state), and for the empty list it returns 0 with the
table state untouched (an absent table is not created). -/
theorem claim_c7 (db : Option Table) (es : List Entry) (now : Nat) :
    (persist_entries db es now).2 = es.length
    ∧ persist_entries db [] now = (db, 0) :=
  ⟨persist_count db es now, rfl⟩

/-- Claim C8: the store keeps exactly one row per date across any sequence of
upsert calls; upserting an entry whose date already exists replaces all
non-key fields of that row with the new values and refreshes `fetched_at`
(the date's rows after the call are exactly the new row), and never creates a
second row (the table keeps its length). -/
theorem claim_c8 (db : Option Table) (es : List Entry) (now : Nat)
    (t : Table) (e : Entry) (m : Nat) (calls : List (List Entry × Nat))
    (hdb : distinctDates (rowsOf db)) (ht : distinctDates t)
    (hin : e.date ∈ t.map Row.date) :
    distinctDates (rowsOf (persist_entries db es now).1)
    ∧ distinctDates (rowsOf (runCalls none calls))
    ∧ ((rowsOf (persist_entries (some t) [e] m).1).filter
        fun r => r.date == e.date) = [mkRow e m]
    ∧ (rowsOf (persist_entries (some t) [e] m).1).length = t.length := by
  have hany : (t.any fun r => r.date == e.date) = true := by
    obtain ⟨r, hr, hrd⟩ := List.mem_map.mp hin
    exact List.any_eq_true.mpr ⟨r, hr, beq_iff_eq.mpr hrd⟩
  have hrows : rowsOf (persist_entries (some t) [e] m).1 = upsertRow t e m := by
    rw [persist_rows]
    rfl
  refine ⟨persist_distinct db es now hdb,
    runCalls_distinct calls none (by simp [rowsOf, distinctDates]),
    ?_, ?_⟩
  · rw [hrows]
    exact upsert_filter_self t e m e.date ht rfl
  · rw [hrows]
    unfold upsertRow
    rw [if_pos hany, List.length_map]

/-- Claim C8 witness: a one-row table upserted with a new title for the same
date keeps one row, with the new title and the refreshed timestamp. -/
theorem claim_c8_witness :
    ((rowsOf (persist_entries
        (some [mkRow ⟨"2024-01-01", "First", none, none, none, none, none,
          none, none⟩ 1])
        [⟨"2024-01-01", "First-updated", none, none, none, none, none, none,
          none⟩] 2).1).filter
      fun r => r.date == "2024-01-01") =
      [mkRow ⟨"2024-01-01", "First-updated", none, none, none, none, none,
        none, none⟩ 2] :=
  (claim_c8 none []
    0
    [mkRow ⟨"2024-01-01", "First", none, none, none, none, none, none,
      none⟩ 1]
    ⟨"2024-01-01", "First-updated", none, none, none, none, none, none,
      none⟩ 2 []
    (by decide) (by decide) (by decide)).2.2.1

/-- Claim C9: each upsert call is transactional — with no internal failure
the whole batch's effects are committed, and an internal failure mid-batch
rolls the row changes back, leaving the table rows exactly as before the
call (an already-existing table is left untouched as a whole). -/
theorem claim_c9 (db : Option Table) (es : List Entry) (now k : Nat)
    (hk : k < es.length) :
    rowsOf (persist_entries_tx db es now (some k)).1 = rowsOf db
    ∧ (∀ t0, db = some t0 → (persist_entries_tx db es now (some k)).1 = some t0)
    ∧ (persist_entries_tx db es now (some k)).2 = Except.error ()
    ∧ persist_entries_tx db es now none =
        ((persist_entries db es now).1, Except.ok es.length) := by
  have hne : es.isEmpty = false := by
    cases es with
    | nil => simp at hk
    | cons e rest => rfl
  have hfail : persist_entries_tx db es now (some k) =
      (some (ensure_schema db), Except.error ()) := by
    unfold persist_entries_tx
    rw [hne]
    simp only [Bool.false_eq_true, if_false]
    rw [execGo_fail now k es (ensure_schema db) 0 (Nat.zero_le k)
      (by simpa using hk)]
  have hok : persist_entries_tx db es now none =
      (some (es.foldl (fun a e => upsertRow a e now) (ensure_schema db)),
        Except.ok es.length) := by
    unfold persist_entries_tx
    rw [hne]
    simp only [Bool.false_eq_true, if_false]
    rw [execGo_ok now es (ensure_schema db) 0]
  refine ⟨?_, ?_, ?_, ?_⟩
  · rw [hfail]
    rfl
  · intro t0 h0
    rw [hfail, h0]
    rfl
  · rw [hfail]
  · rw [hok]
    unfold persist_entries
    rw [hne]
    simp only [Bool.false_eq_true, if_false]

/-- Claim C9 witness: a two-entry batch failing before its second statement
leaves the one-row table exactly as it was, while the failure-free call
commits both rows and reports 2. -/
theorem claim_c9_witness :
    rowsOf (persist_entries_tx
        (some [mkRow ⟨"2024-01-01", "A", none, none, none, none, none, none,
          none⟩ 1])
        [⟨"2024-01-02", "B", none, none, none, none, none, none, none⟩,
         ⟨"2024-01-03", "C", none, none, none, none, none, none, none⟩]
        2 (some 1)).1 =
      rowsOf (some [mkRow ⟨"2024-01-01", "A", none, none, none, none, none,
        none, none⟩ 1]) :=
  (claim_c9
    (some [mkRow ⟨"2024-01-01", "A", none, none, none, none, none, none,
      none⟩ 1])
    [⟨"2024-01-02", "B", none, none, none, none, none, none, none⟩,
     ⟨"2024-01-03", "C", none, none, none, none, none, none, none⟩]
    2 1 (by decide)).1

/-- Claim C10: a batch containing several entries with the same date leaves
exactly one row for that date, carrying the values of the last such entry in
the batch (entries are applied in input order), and the reported count is
still the full input length. -/
theorem claim_c10 (t : Table) (es : List Entry) (now : Nat) (d : String)
    (elast : Entry) (ht : distinctDates t)
    (hdup : 2 ≤ (es.filter fun e => e.date == d).length)
    (hlast : lastWith es d = some elast) :
    (persist_entries (some t) es now).2 = es.length
    ∧ ((rowsOf (persist_entries (some t) es now).1).filter
        fun r => r.date == d) = [mkRow elast now] := by
  refine ⟨persist_count (some t) es now, ?_⟩
  have hrows : rowsOf (persist_entries (some t) es now).1 =
      es.foldl (fun a e => upsertRow a e now) t := persist_rows (some t) es now
  rw [hrows, foldl_upsert_filter now d es t ht, hlast]

/-- Claim C10 witness: a batch with two entries for the same date yields one
row carrying the second entry's values, and a reported count of 2. -/
theorem claim_c10_witness :
    (persist_entries (some [])
        [⟨"2024-01-01", "A", none, none, none, none, none, none, none⟩,
         ⟨"2024-01-01", "B", none, none, none, none, none, none, none⟩]
        7).2 = 2
    ∧ ((rowsOf (persist_entries (some [])
        [⟨"2024-01-01", "A", none, none, none, none, none, none, none⟩,
         ⟨"2024-01-01", "B", none, none, none, none, none, none, none⟩]
        7).1).filter fun r => r.date == "2024-01-01") =
      [mkRow ⟨"2024-01-01", "B", none, none, none, none, none, none,
        none⟩ 7] :=
  claim_c10 []
    [⟨"2024-01-01", "A", none, none, none, none, none, none, none⟩,
     ⟨"2024-01-01", "B", none, none, none, none, none, none, none⟩]
    7 "2024-01-01"
    ⟨"2024-01-01", "B", none, none, none, none, none, none, none⟩
    (by decide) (by decide) (by decide)

theorem isExhausted_map (r : Except FetchError Payload) :
    isExhausted (r.map normalizePayload) = isExhaustedP r := by
  cases r with
  | ok p => rfl
  | error e => cases e <;> rfl

theorem fetchGo_succ_eq (oracle : Nat → AttemptOutcome) (retries : Nat)
    (w : Int) (fuel attempt : Nat) (le : Option String) :
    fetchGo oracle retries w (fuel + 1) attempt le =
      (match oracle attempt with
       | AttemptOutcome.netError msg =>
         if attempt = retries then
           ([], Except.error (FetchError.networkError msg))
         else
           (w :: (fetchGo oracle retries w fuel (attempt + 1) (some msg)).1,
            (fetchGo oracle retries w fuel (attempt + 1) (some msg)).2)
       | AttemptOutcome.response r =>
         if r.status = 429 ∧ attempt < retries then
           match retryAfterSeconds r.retryAfter w with
           | none => ([], Except.error
               (FetchError.retryAfterValueError (r.retryAfter.getD "")))
           | some v =>
             (v :: (fetchGo oracle retries w fuel (attempt + 1) le).1,
              (fetchGo oracle retries w fuel (attempt + 1) le).2)
         else if 500 ≤ r.status ∧ attempt < retries then
           (w :: (fetchGo oracle retries w fuel (attempt + 1) le).1,
            (fetchGo oracle retries w fuel (attempt + 1) le).2)
         else
           match r.body with
           | none =>
             ([], Except.error (FetchError.nonJson (r.text.take 200)))
           | some p =>
             if r.status ≠ 200 then
               ([], Except.error
                 (FetchError.apiError r.status (apiMessage p r.text)))
             else ([], Except.ok p)) := rfl

theorem fetchGo_not_exhausted (oracle : Nat → AttemptOutcome) (retries : Nat)
    (w : Int) :
    ∀ (fuel attempt : Nat) (le : Option String), attempt + fuel = retries →
      isExhaustedP (fetchGo oracle retries w (fuel + 1) attempt le).2 =
        false := by
  intro fuel
  induction fuel with
  | zero =>
    intro attempt le h
    have hal : attempt = retries := by omega
    have hlt : ¬ attempt < retries := by omega
    rw [fetchGo_succ_eq]
    cases ho : oracle attempt with
    | netError msg =>
      simp only []
      rw [if_pos hal]
      rfl
    | response r =>
      simp only []
      rw [if_neg (fun hc => hlt hc.2), if_neg (fun hc => hlt hc.2)]
      cases hb : r.body with
      | none => rfl
      | some p =>
        simp only []
        by_cases h200 : r.status ≠ 200
        · rw [if_pos h200]
          rfl
        · rw [if_neg h200]
          rfl
  | succ n ih =>
    intro attempt le h
    rw [fetchGo_succ_eq]
    cases ho : oracle attempt with
    | netError msg =>
      simp only []
      by_cases hal : attempt = retries
      · rw [if_pos hal]
        rfl
      · rw [if_neg hal]
        exact ih (attempt + 1) (some msg) (by omega)
    | response r =>
      simp only []
      by_cases h429 : r.status = 429 ∧ attempt < retries
      · rw [if_pos h429]
        cases hra : retryAfterSeconds r.retryAfter w with
        | none => rfl
        | some v => exact ih (attempt + 1) le (by omega)
      · rw [if_neg h429]
        by_cases h5 : 500 ≤ r.status ∧ attempt < retries
        · rw [if_pos h5]
          exact ih (attempt + 1) le (by omega)
        · rw [if_neg h5]
          cases hb : r.body with
          | none => rfl
          | some p =>
            simp only []
            by_cases h200 : r.status ≠ 200
            · rw [if_pos h200]
              rfl
            · rw [if_neg h200]
              rfl

theorem fetchGo_const_net (retries : Nat) (w : Int) (m : String) :
    ∀ (fuel attempt : Nat) (le : Option String), attempt + fuel = retries →
      fetchGo (fun _ => AttemptOutcome.netError m) retries w (fuel + 1)
          attempt le =
        (List.replicate fuel w, Except.error (FetchError.networkError m)) := by
  intro fuel
  induction fuel with
  | zero =>
    intro attempt le h
    have hal : attempt = retries := by omega
    rw [fetchGo_succ_eq]
    simp only []
    rw [if_pos hal]
    rfl
  | succ n ih =>
    intro attempt le h
    have hal : attempt ≠ retries := by omega
    rw [fetchGo_succ_eq]
    simp only []
    rw [if_neg hal, ih (attempt + 1) (some m) (by omega)]
    simp [List.replicate_succ]

theorem fetchGo_const_429 (retries : Nat) (w : Int) (ra : Option String)
    (v : Int) (p : Payload) (s : String)
    (hra : retryAfterSeconds ra w = some v) :
    ∀ (fuel attempt : Nat) (le : Option String), attempt + fuel = retries →
      fetchGo (fun _ => AttemptOutcome.response ⟨429, ra, some p, s⟩) retries
          w (fuel + 1) attempt le =
        (List.replicate fuel v,
         Except.error (FetchError.apiError 429 (apiMessage p s))) := by
  intro fuel
  induction fuel with
  | zero =>
    intro attempt le h
    have hlt : ¬ attempt < retries := by omega
    rw [fetchGo_succ_eq]
    simp only []
    rw [if_neg (fun hc => hlt hc.2), if_neg (fun hc => hlt hc.2),
      if_pos (by decide : (429 : Nat) ≠ 200)]
    rfl
  | succ n ih =>
    intro attempt le h
    have hlt : attempt < retries := by omega
    rw [fetchGo_succ_eq]
    simp only []
    rw [if_pos (⟨trivial, hlt⟩ : True ∧ attempt < retries), hra,
      ih (attempt + 1) le (by omega)]
    simp [List.replicate_succ]

theorem fetchGo_const_5xx (retries : Nat) (w : Int) (st : Nat)
    (ra : Option String) (p : Payload) (s : String) (hst : 500 ≤ st) :
    ∀ (fuel attempt : Nat) (le : Option String), attempt + fuel = retries →
      fetchGo (fun _ => AttemptOutcome.response ⟨st, ra, some p, s⟩) retries
          w (fuel + 1) attempt le =
        (List.replicate fuel w,
         Except.error (FetchError.apiError st (apiMessage p s))) := by
  intro fuel
  induction fuel with
  | zero =>
    intro attempt le h
    have hlt : ¬ attempt < retries := by omega
    rw [fetchGo_succ_eq]
    simp only []
    rw [if_neg (fun hc => hlt hc.2), if_neg (fun hc => hlt hc.2),
      if_pos (by omega : st ≠ 200)]
    rfl
  | succ n ih =>
    intro attempt le h
    have hlt : attempt < retries := by omega
    rw [fetchGo_succ_eq]
    simp only []
    rw [if_neg (fun hc => by omega : ¬ (st = 429 ∧ attempt < retries)),
      if_pos (⟨hst, hlt⟩ : 500 ≤ st ∧ attempt < retries),
      ih (attempt + 1) le (by omega)]
    simp [List.replicate_succ]

/-- Claim C1 counterexample: with one retry allowed and every attempt
answered by HTTP 429 (no `Retry-After` header, JSON body), the fetch fails
with `ApiError{429, body}` raised on the final attempt, not with
`ExhaustedRetries`. -/
theorem claim_c1_counterexample :
    fetch_apod_range
        (fun _ => AttemptOutcome.response
          ⟨429, none, some (Payload.arr []), "rate limited"⟩) 1 5 =
      ([5],
       Except.error (FetchError.apiError 429 (ApiMessage.text "rate limited")))
    ∧ isExhausted (fetch_apod_range
        (fun _ => AttemptOutcome.response
          ⟨429, none, some (Payload.arr []), "rate limited"⟩) 1 5).2 =
      false :=
  ⟨rfl, rfl⟩

/-- Claim C1 (amended): when all retry attempts are consumed without a 200
response, the failure is never `ExhaustedRetries` (that raise is dead code
for `maxRetries ≥ 0`): repeated network errors propagate the last one as
`NetworkError`; repeated 429s end with `ApiError{429, body}` raised on the
final attempt; repeated ≥ 500 responses end with `ApiError{status, body}`
raised on the final attempt.  Earlier attempts sleep as configured. -/
theorem claim_c1_amended (oracle : Nat → AttemptOutcome) (retries : Nat)
    (w : Int) (m : String) (p : Payload) (s : String) (ra : Option String)
    (v : Int) (st : Nat) (hra : retryAfterSeconds ra w = some v)
    (hst : 500 ≤ st) :
    isExhausted (fetch_apod_range oracle retries w).2 = false
    ∧ fetch_apod_range (fun _ => AttemptOutcome.netError m) retries w =
        (List.replicate retries w,
         Except.error (FetchError.networkError m))
    ∧ fetch_apod_range
          (fun _ => AttemptOutcome.response ⟨429, ra, some p, s⟩) retries w =
        (List.replicate retries v,
         Except.error (FetchError.apiError 429 (apiMessage p s)))
    ∧ fetch_apod_range
          (fun _ => AttemptOutcome.response ⟨st, ra, some p, s⟩) retries w =
        (List.replicate retries w,
         Except.error (FetchError.apiError st (apiMessage p s))) := by
  refine ⟨?_, ?_, ?_, ?_⟩
  · rw [fetch_apod_range, isExhausted_map]
    exact fetchGo_not_exhausted oracle retries w retries 0 none (by omega)
  · rw [fetch_apod_range,
      fetchGo_const_net retries w m retries 0 none (by omega)]
    rfl
  · rw [fetch_apod_range,
      fetchGo_const_429 retries w ra v p s hra retries 0 none (by omega)]
    rfl
  · rw [fetch_apod_range,
      fetchGo_const_5xx retries w st ra p s hst retries 0 none (by omega)]
    rfl

/-- Claim C1 amended witness: two retries of network errors end in
`NetworkError` after two sleeps. -/
theorem claim_c1_amended_witness :
    fetch_apod_range (fun _ => AttemptOutcome.netError "boom") 2 5 =
      (List.replicate 2 5, Except.error (FetchError.networkError "boom")) :=
  (claim_c1_amended (fun _ => AttemptOutcome.netError "boom") 2 5 "boom"
    (Payload.arr []) "x" none 5 503 rfl (by decide)).2.1

/-- Claim C2 counterexample: a 429 response carrying the unparseable header
`Retry-After: soon` while three attempts remain does not sleep
`retryWaitSeconds` and retry — the `int(...)` call fails and the fetch
errors with no sleep at all, even though the next attempt would have
succeeded. -/
theorem claim_c2_counterexample :
    fetch_apod_range
        (fun i => if i = 0
          then AttemptOutcome.response
            ⟨429, some "soon", some (Payload.arr []), "limited"⟩
          else AttemptOutcome.response
            ⟨200, none, some (Payload.arr []), "ok"⟩) 3 5 =
      ([], Except.error (FetchError.retryAfterValueError "soon")) :=
  rfl

/-- Claim C2 (amended): for every HTTP 429 response received while retry
attempts remain, the fetcher sleeps the `Retry-After` header value when the
header is present and parseable as an integer, sleeps `retryWaitSeconds`
when the header is absent, and then retries with the next attempt (the 429
is never treated as success); when the header is present but unparseable,
`int(...)` raises and the fetch fails instead of falling back. -/
theorem claim_c2_amended (oracle : Nat → AttemptOutcome) (retries : Nat)
    (w : Int) (fuel attempt : Nat) (le : Option String) (r : Response)
    (ho : oracle attempt = AttemptOutcome.response r) (h429 : r.status = 429)
    (hrem : attempt < retries) :
    (∀ v, retryAfterSeconds r.retryAfter w = some v →
      fetchGo oracle retries w (fuel + 1) attempt le =
        (v :: (fetchGo oracle retries w fuel (attempt + 1) le).1,
         (fetchGo oracle retries w fuel (attempt + 1) le).2))
    ∧ (retryAfterSeconds r.retryAfter w = none →
        fetchGo oracle retries w (fuel + 1) attempt le =
          ([], Except.error
            (FetchError.retryAfterValueError (r.retryAfter.getD ""))))
    ∧ retryAfterSeconds none w = some w := by
  refine ⟨fun v hv => ?_, fun hv => ?_, rfl⟩ <;>
    · rw [fetchGo_succ_eq]
      simp only [ho]
      rw [if_pos (⟨h429, hrem⟩ : r.status = 429 ∧ attempt < retries), hv]

/-- Claim C2 amended witness: a 429 with `Retry-After: 2` on the first of
four attempts sleeps 2 seconds and hands over to attempt 1. -/
theorem claim_c2_amended_witness :
    fetchGo
        (fun i => if i = 0
          then AttemptOutcome.response
            ⟨429, some "2", some (Payload.arr []), "limited"⟩
          else AttemptOutcome.response
            ⟨200, none, some (Payload.arr []), "ok"⟩) 3 5 4 0 none =
      ((2 : Int) :: (fetchGo
        (fun i => if i = 0
          then AttemptOutcome.response
            ⟨429, some "2", some (Payload.arr []), "limited"⟩
          else AttemptOutcome.response
            ⟨200, none, some (Payload.arr []), "ok"⟩) 3 5 3 1 none).1,
       (fetchGo
        (fun i => if i = 0
          then AttemptOutcome.response
            ⟨429, some "2", some (Payload.arr []), "limited"⟩
          else AttemptOutcome.response
            ⟨200, none, some (Payload.arr []), "ok"⟩) 3 5 3 1 none).2) :=
  (claim_c2_amended
    (fun i => if i = 0
      then AttemptOutcome.response
        ⟨429, some "2", some (Payload.arr []), "limited"⟩
      else AttemptOutcome.response
        ⟨200, none, some (Payload.arr []), "ok"⟩) 3 5 3 0 none
    ⟨429, some "2", some (Payload.arr []), "limited"⟩ rfl rfl
    (by decide)).1 2 (by decide)

/-- Claim C5: a response whose status is neither 200 nor 429 nor ≥ 500
(e.g. 403) makes the fetch fail immediately on the attempt that received it
with `ApiError{status, body}` (for a JSON body), with no sleep and no
further retry, regardless of the remaining retry budget. -/
theorem claim_c5 (oracle : Nat → AttemptOutcome) (retries : Nat) (w : Int)
    (fuel attempt : Nat) (le : Option String) (st : Nat) (ra : Option String)
    (p : Payload) (s : String)
    (ho : oracle attempt = AttemptOutcome.response ⟨st, ra, some p, s⟩)
    (h200 : st ≠ 200) (h429 : st ≠ 429) (h5 : st < 500) :
    fetchGo oracle retries w (fuel + 1) attempt le =
      ([], Except.error (FetchError.apiError st (apiMessage p s))) := by
  rw [fetchGo_succ_eq]
  simp only [ho]
  rw [if_neg (fun hc => h429 hc.1),
    if_neg (fun hc => absurd hc.1 (by omega)), if_pos h200]

/-- Claim C5 witness: a 403 on attempt 0 of a `retries = 3` run fails at
once with `ApiError{403, body}` and an empty sleep trace. -/
theorem claim_c5_witness :
    fetchGo
        (fun _ => AttemptOutcome.response
          ⟨403, none, some (Payload.arr []), "forbidden"⟩) 3 5 4 0 none =
      ([], Except.error (FetchError.apiError 403 (ApiMessage.text
        "forbidden"))) :=
  claim_c5
    (fun _ => AttemptOutcome.response
      ⟨403, none, some (Payload.arr []), "forbidden"⟩) 3 5 3 0 none 403 none
    (Payload.arr []) "forbidden" rfl (by decide) (by decide) (by decide)

end Apod
